import Mathlib

/-
Verification development for the distributed Ford-Fulkerson max-flow program
in src/Project/src/project.cpp (Parallel-Computing-S2019-RPI).

The algorithmic functions below are shallow embeddings of the corresponding
C++ functions of project.cpp; line numbers in the doc comments refer to that
file.  The record types mirror the data model: the header data-structures.h is
not part of the sources, so the record layouts are modelled from the spec
(section 3, "DATA MODEL") together with every field use in project.cpp.
C `int` values are modelled as `Int` (the spec's non-goals exclude flows
beyond the signed 32-bit range), global ids as `Nat`, and the unsigned
`local_id` (whose `(local_id)-1` is used as a "not local" sentinel) as `Int`
with sentinel `-1`.
-/

set_option maxRecDepth 8000

/-- Modelled from the spec: an outgoing edge record (spec section 3;
data-structures.h is not in the sources).  Fields as used by project.cpp:
destination global id, destination local index (sentinel -1 when remote),
destination rank, capacity and flow. -/
structure out_edge where
  dest_node_id : Nat
  vert_index : Int
  rank_location : Int
  capacity : Int
  flow : Int
deriving Repr, DecidableEq, Inhabited

/-- Modelled from the spec: an incoming (reverse) edge record (spec section
3).  It stores no flow; `dest_node_id` is the global id of the edge's source
("from") node, `vert_index`/`rank_location` its local index and rank. -/
structure in_edge where
  dest_node_id : Nat
  vert_index : Int
  rank_location : Int
deriving Repr, DecidableEq, Inhabited

/-- Modelled from the spec: a vertex owns its global id and the two edge
lists (spec section 3). -/
structure vertex where
  id : Nat
  out_edges : List out_edge
  in_edges : List in_edge
deriving Repr, DecidableEq, Inhabited

/-- Modelled from the spec: a label slot (spec section 3): value (0 = empty)
plus the back pointer (previous node's global id, rank, local index), as used
by set_label and the backtracking code of project.cpp. -/
structure label where
  value : Int
  prev_node : Nat
  prev_rank_loc : Int
  prev_vert_index : Int
deriving Repr, DecidableEq, Inhabited

/-- Modelled from the spec: the empty label (labels are wiped to EMPTY_LABEL
at the start of each pass, project.cpp line 440).  Its value is 0 ("a
vertex's label is either empty or set to a non-zero signed integer"); the
back-pointer fields of an empty slot are never read by the program. -/
def EMPTY_LABEL : label := ⟨0, 0, -1, -1⟩

/-- Modelled from the spec: an edge-queue entry (spec section 3):
`(vertex_local_index, is_outgoing_flag, edge_index_within_that_list)`. -/
structure edge_entry where
  vertex_index : Nat
  is_outgoing : Bool
  edge_index : Nat
deriving Repr, DecidableEq, Inhabited

/-- The wire message header, project.cpp lines 77-86. -/
structure message_data where
  senders_node : Nat
  receivers_node : Nat
  value : Int
  pass : Int
deriving Repr, DecidableEq, Inhabited

/-- Message tags, project.cpp lines 88-109. -/
inductive message_tags where
  | SET_TO_LABEL
  | COMPUTE_FROM_LABEL
  | SINK_FOUND
  | UPDATE_FLOW
  | SOURCE_FOUND
  | TOTAL_FLOW
  | TOKEN_WHITE
  | TOKEN_RED
  | CHECK_TERMINATION
deriving Repr, DecidableEq, Inhabited

/-- A message emitted by this rank: destination rank, tag, and the payload
(`none` for the tag-only control messages sent with a NULL buffer). -/
structure sent_msg where
  dest : Int
  tag : message_tags
  payload : Option message_data
deriving Repr, DecidableEq, Inhabited

/-- The per-rank shared algorithm state touched by the labeling search:
the vertex store, the label slots (one per vertex) and the edge work queue
(head of the list = head of the FIFO). -/
structure PassState where
  vertices : List vertex
  labels : List label
  queue : List edge_entry
deriving Repr, DecidableEq, Inhabited

/-- lookup_global_id, project.cpp lines 206-212: the local index of the node
with the given global id, or -1 when it is not local.  The global_to_local
map is built in main (lines 1261-1263) as vertex-list position, so the lookup
is modelled as a positional search. -/
def lookup_global_id (vs : List vertex) (gid : Nat) : Int :=
  match vs.findIdx? (fun v => v.id == gid) with
  | some i => (i : Int)
  | none => -1

/-- Reads `labels[i].value` for an edge's `vert_index` field; 0 when the index
is the `(local_id)-1` sentinel or out of range.  (The C code only evaluates
this when `rank_location` says the index is a valid local index, via the
short-circuit `&&` in insert_edges.) -/
def labelValueAt (ls : List label) (i : Int) : Int :=
  if i < 0 then 0 else (ls.getD i.toNat EMPTY_LABEL).value

/-- insert_edges, project.cpp lines 347-385: builds the queue fragment of
candidate edges of a newly labelled node `vert_idx` - one entry per outgoing
and per incoming edge, skipping edges whose far endpoint is a local node that
already has a non-zero label and edges whose far endpoint is the labelled
node's recorded predecessor - and merges it into the edge queue's tail.  The
function returns the fragment. -/
def insert_edges (rank : Int) (st : PassState) (vert_idx : Nat) : List edge_entry :=
  let v := st.vertices.getD vert_idx default
  let prev := (st.labels.getD vert_idx EMPTY_LABEL).prev_node
  let outs := (List.range v.out_edges.length).filterMap (fun i =>
    let e := v.out_edges.getD i default
    if e.rank_location = rank ∧ labelValueAt st.labels e.vert_index ≠ 0 then none
    else if e.dest_node_id = prev then none
    else some ⟨vert_idx, true, i⟩)
  let ins := (List.range v.in_edges.length).filterMap (fun i =>
    let e := v.in_edges.getD i default
    if e.rank_location = rank ∧ labelValueAt st.labels e.vert_index ≠ 0 then none
    else if e.dest_node_id = prev then none
    else some ⟨vert_idx, false, i⟩)
  outs ++ ins

/-- set_label, project.cpp lines 901-917: a compare-and-set of
`labels[curr_idx].value` from 0 to `value`; the winner fills the back-pointer
fields and, unless the labelled node is the sink, enqueues its edges via
insert_edges.  Returns the new state and `true` exactly when the CAS won and
the labelled node is the sink. -/
def set_label (rank : Int) (sink : Nat) (prev_node : Nat) (prev_rank : Int)
    (prev_idx : Int) (curr_idx : Nat) (value : Int) (st : PassState) :
    PassState × Bool :=
  if (st.labels.getD curr_idx EMPTY_LABEL).value = 0 then
    let st2 : PassState :=
      { st with labels := st.labels.set curr_idx ⟨value, prev_node, prev_rank, prev_idx⟩ }
    if (st.vertices.getD curr_idx default).id = sink then (st2, true)
    else ({ st2 with queue := st2.queue ++ insert_edges rank st2 curr_idx }, false)
  else (st, false)

/-- Result of a worker handling one edge entry: new shared state, messages
sent, the local sink index when the sink was just labelled (-1 otherwise,
mirroring the `local_id` return of the C functions), and the possibly updated
ring color `my_color`. -/
structure HandleResult where
  st : PassState
  sent : List sent_msg
  bt : Int
  color : message_tags
deriving Repr, DecidableEq, Inhabited

/-- handle_out_edge, project.cpp lines 919-954. -/
def handle_out_edge (rank : Int) (sink : Nat) (curr_pass : Int)
    (my_color : message_tags) (entry : edge_entry) (st : PassState) : HandleResult :=
  let from_id := entry.vertex_index
  let v := st.vertices.getD from_id default
  let edge := v.out_edges.getD entry.edge_index default
  let flow_diff := edge.capacity - edge.flow
  if flow_diff ≤ 0 then ⟨st, [], -1, my_color⟩
  else
    let label_val : Int :=
      min (((st.labels.getD from_id EMPTY_LABEL).value.natAbs : Int)) flow_diff
    if edge.rank_location = rank then
      let r := set_label rank sink v.id rank (from_id : Int) edge.vert_index.toNat label_val st
      if r.2 then ⟨r.1, [], edge.vert_index, my_color⟩
      else ⟨r.1, [], -1, my_color⟩
    else
      let c := if edge.rank_location < rank then message_tags.TOKEN_RED else my_color
      ⟨st, [⟨edge.rank_location, message_tags.SET_TO_LABEL,
             some ⟨v.id, edge.dest_node_id, label_val, curr_pass⟩⟩], -1, c⟩

/-- The flow lookup inside handle_in_edge, project.cpp lines 963-972: the
flow of the first outgoing edge of `vertices[from_id]` whose `vert_index`
equals `to_id` (the loop breaks at the first match), or -1 when none
matches. -/
def find_flow_by_index (st : PassState) (from_id : Nat) (to_id : Nat) : Int :=
  match (st.vertices.getD from_id default).out_edges.find?
      (fun e => e.vert_index == (to_id : Int)) with
  | some e => e.flow
  | none => -1

/-- handle_in_edge, project.cpp lines 956-1003. -/
def handle_in_edge (rank : Int) (sink : Nat) (curr_pass : Int)
    (my_color : message_tags) (entry : edge_entry) (st : PassState) : HandleResult :=
  let to_id := entry.vertex_index
  let v := st.vertices.getD to_id default
  let rev_edge := v.in_edges.getD entry.edge_index default
  if rev_edge.rank_location = rank then
    let from_id := rev_edge.vert_index.toNat
    let curr_flow := find_flow_by_index st from_id to_id
    if curr_flow ≤ 0 then ⟨st, [], -1, my_color⟩
    else
      let label_val : Int :=
        -(min (((st.labels.getD to_id EMPTY_LABEL).value.natAbs : Int)) curr_flow)
      let r := set_label rank sink v.id rank (to_id : Int) from_id label_val st
      if r.2 then ⟨r.1, [], rev_edge.vert_index, my_color⟩
      else ⟨r.1, [], -1, my_color⟩
  else
    let c := if rev_edge.rank_location < rank then message_tags.TOKEN_RED else my_color
    ⟨st, [⟨rev_edge.rank_location, message_tags.COMPUTE_FROM_LABEL,
           some ⟨v.id, rev_edge.dest_node_id, (st.labels.getD to_id EMPTY_LABEL).value,
                 curr_pass⟩⟩], -1, c⟩

/-- The queue_is_empty encoding used for the termination all-reduce,
project.cpp lines 609 and 632: 0 when this rank's queue is empty, 1 when it
is not. -/
def encode_empty (q : Bool) : Int := if q then 0 else 1

/-- The MPI_Allreduce(MPI_SUM) over every rank's encoded queue_is_empty flag
(project.cpp lines 611 and 634). -/
def allreduce_sum (flags : List Bool) : Int := (flags.map encode_empty).sum

/-- The flow lookup inside the COMPUTE_FROM_LABEL case of the step-2 router,
project.cpp lines 542-551: the flow of the first outgoing edge of
`vertices[idx]` whose destination global id equals `gid` (the loop breaks at
the first match), or the initial value 0 when none matches. -/
def find_flow_by_gid (st : PassState) (idx : Nat) (gid : Nat) : Int :=
  match (st.vertices.getD idx default).out_edges.find?
      (fun e => e.dest_node_id == gid) with
  | some e => e.flow
  | none => 0

/-- The per-rank state of the step-2 message router thread. -/
structure RouterState where
  ps : PassState
  sink_found : Bool
  working_threads : Int
  token_color : message_tags
  have_token : Bool
  algorithm_complete : Bool
  bt_idx : Int
deriving Repr, DecidableEq, Inhabited

/-- One iteration of the step-2 router loop of run_algorithm, project.cpp
lines 490-648, for a single received message: `rank`/`P` are mpi_rank and
mpi_size, `flags` is the list of queue_is_empty values contributed by all
ranks to the termination all-reduce, `src` the sending rank.  The
working_threads counter is incremented on receipt (line 496) and decremented
on every exit path (lines 505, 510, 531, 537, 553, 615, 637, 647).  Returns
the new router state and the messages sent. -/
def handle_message_step2 (rank P : Nat) (sink : Nat) (curr_pass : Int)
    (flags : List Bool) (src : Nat) (tag : message_tags) (msg : message_data)
    (rst : RouterState) : RouterState × List sent_msg :=
  let wt1 := rst.working_threads + 1
  match tag with
  | message_tags.SET_TO_LABEL =>
    let vert_idx := lookup_global_id rst.ps.vertices msg.receivers_node
    if vert_idx = -1 then ({ rst with working_threads := wt1 - 1 }, [])
    else if msg.pass ≠ curr_pass then ({ rst with working_threads := wt1 - 1 }, [])
    else
      let r := set_label (rank : Int) sink msg.senders_node (src : Int) (-1)
        vert_idx.toNat msg.value rst.ps
      if r.2 then
        ({ rst with ps := r.1, sink_found := true, bt_idx := vert_idx,
                    working_threads := wt1 - 1 }, [])
      else ({ rst with ps := r.1, working_threads := wt1 - 1 }, [])
  | message_tags.COMPUTE_FROM_LABEL =>
    let vert_idx := lookup_global_id rst.ps.vertices msg.receivers_node
    if vert_idx = -1 then ({ rst with working_threads := wt1 - 1 }, [])
    else if msg.pass ≠ curr_pass then ({ rst with working_threads := wt1 - 1 }, [])
    else
      let curr_flow := find_flow_by_gid rst.ps vert_idx.toNat msg.senders_node
      if curr_flow ≤ 0 then ({ rst with working_threads := wt1 - 1 }, [])
      else
        let r := set_label (rank : Int) sink msg.senders_node (src : Int) (-1)
          vert_idx.toNat (-(min ((msg.value.natAbs : Int)) curr_flow)) rst.ps
        if r.2 then
          ({ rst with ps := r.1, sink_found := true, bt_idx := vert_idx,
                      working_threads := wt1 - 1 }, [])
        else ({ rst with ps := r.1, working_threads := wt1 - 1 }, [])
  | message_tags.SINK_FOUND =>
    ({ rst with sink_found := true, working_threads := wt1 - 1 }, [])
  | message_tags.TOKEN_WHITE =>
    if rank = 0 then
      let sends := (List.range (P - 1)).map
        (fun (i : Nat) => (⟨(i : Int) + 1, message_tags.CHECK_TERMINATION, none⟩ : sent_msg))
      if allreduce_sum flags = 0 then
        ({ rst with token_color := message_tags.TOKEN_WHITE,
                    algorithm_complete := true, working_threads := wt1 - 1 }, sends)
      else
        ({ rst with token_color := message_tags.TOKEN_WHITE, have_token := true,
                    working_threads := wt1 - 1 }, sends)
    else
      ({ rst with token_color := message_tags.TOKEN_WHITE, have_token := true,
                  working_threads := wt1 - 1 }, [])
  | message_tags.TOKEN_RED =>
    if rank = 0 then
      ({ rst with token_color := message_tags.TOKEN_WHITE, have_token := true,
                  working_threads := wt1 - 1 }, [])
    else
      ({ rst with token_color := message_tags.TOKEN_RED, have_token := true,
                  working_threads := wt1 - 1 }, [])
  | message_tags.CHECK_TERMINATION =>
    if allreduce_sum flags = 0 then
      ({ rst with algorithm_complete := true, working_threads := wt1 - 1 }, [])
    else ({ rst with working_threads := wt1 - 1 }, [])
  | _ => ({ rst with working_threads := wt1 - 1 }, [])

/-- Result of an idle worker forwarding the termination token. -/
structure ForwardResult where
  dest : Nat
  sent_color : message_tags
  token_color : message_tags
  my_color : message_tags
  have_token : Bool
deriving Repr, DecidableEq, Inhabited

/-- Token forwarding by an idle worker thread, project.cpp lines 658-674: the
token's color becomes red when the forwarder's own color is red, the token
goes to rank (rank+1) mod P, and after the send the forwarder resets its own
color `my_color` to white. -/
def forward_token (rank P : Nat) (my_color token_color : message_tags) : ForwardResult :=
  let tc := if my_color = message_tags.TOKEN_RED then message_tags.TOKEN_RED else token_color
  { dest := (rank + 1) % P, sent_color := tc, token_color := tc,
    my_color := message_tags.TOKEN_WHITE, have_token := false }

/-- Updates every outgoing edge of `v` whose destination global id equals
`target` by adding `d` to its flow - the (break-less) update loops of the
step-3 backtracking code, project.cpp lines 790-794, 797-801 and 848-852. -/
def addFlowAll (target : Nat) (d : Int) (v : vertex) : vertex :=
  { v with out_edges := v.out_edges.map (fun e => if e.dest_node_id = target then { e with flow := e.flow + d } else e) }

/-- Applies a function to the vertex at index `i`. -/
def updVert (vs : List vertex) (i : Nat) (f : vertex → vertex) : List vertex :=
  vs.set i (f (vs.getD i default))

/-- The flow-update portion of one backtracking step at local node `bt_idx`,
project.cpp lines 784-802: when the label is positive and the predecessor is
local, `sink_value` is added to every outgoing edge of the predecessor whose
destination is `bt_idx`'s node; when the label is negative, `sink_value` is
subtracted from every outgoing edge of `bt_idx` whose destination is the
recorded predecessor node. -/
def bt_update (rank : Int) (st : PassState) (bt_idx : Nat) (sink_value : Int) : PassState :=
  let l := st.labels.getD bt_idx EMPTY_LABEL
  if 0 < l.value ∧ l.prev_rank_loc = rank then
    let vs2 := updVert st.vertices l.prev_vert_index.toNat
      (addFlowAll (st.vertices.getD bt_idx default).id sink_value)
    { st with vertices := vs2 }
  else if l.value < 0 then
    { st with vertices := updVert st.vertices bt_idx (addFlowAll l.prev_node (-sink_value)) }
  else st

/-- Result of the step-3 backtracker handling one inbound message. -/
structure Step3Result where
  ps : PassState
  bt_idx : Int
  sink_value : Int
  step_3_done : Bool
deriving Repr, DecidableEq, Inhabited

/-- The step-3 inbound-message handling of run_algorithm, project.cpp lines
829-869.  The receiver's current pass `curr_pass` is in scope (the global
`pass`) but the UPDATE_FLOW case applies the flow delta without consulting
it; stale step-2 tags are logged and dropped. -/
def step3_recv (curr_pass : Int) (st : PassState) (sink_value : Int)
    (tag : message_tags) (msg : message_data) : Step3Result :=
  match tag with
  | message_tags.SOURCE_FOUND => ⟨st, -1, sink_value, true⟩
  | message_tags.UPDATE_FLOW =>
    let sv := msg.value
    let vert_idx := lookup_global_id st.vertices msg.receivers_node
    let st2 : PassState :=
      { st with vertices := updVert st.vertices vert_idx.toNat (addFlowAll msg.senders_node sv) }
    ⟨st2, vert_idx, sv, false⟩
  | _ => ⟨st, -1, sink_value, false⟩

/-- The sentinel "infinity" label given to the source,
numeric_limits of int max, project.cpp line 459. -/
def INT_MAX : Int := 2147483647

/-- Step 1 of run_algorithm, project.cpp lines 438-461 (thread 0): wipe all
labels, empty the edge queue, and - when this rank owns the source - label it
with the sentinel infinity (which enqueues its edges). -/
def run_step1 (rank : Int) (sink source : Nat) (st : PassState) : PassState :=
  let st1 : PassState :=
    { st with labels := List.replicate st.vertices.length EMPTY_LABEL, queue := [] }
  let i := lookup_global_id st1.vertices source
  if i = -1 then st1
  else (set_label rank sink source rank i i.toNat INT_MAX st1).1

/-- Sequential execution of the step-2 worker loop, project.cpp lines
650-717, for a single rank running one worker thread: entries are popped in
FIFO order and handled until the sink is labelled (result ≠ -1) or the queue
runs empty (termination detection then ends the algorithm).  `fuel` bounds
the iteration count. -/
def run_step2 (rank : Int) (sink : Nat) (curr_pass : Int) :
    Nat → PassState → PassState × Int
  | 0, st => (st, -1)
  | Nat.succ fuel, st =>
    match st.queue with
    | [] => (st, -1)
    | e :: rest =>
      let st1 : PassState := { st with queue := rest }
      let r := if e.is_outgoing then
          handle_out_edge rank sink curr_pass message_tags.TOKEN_WHITE e st1
        else handle_in_edge rank sink curr_pass message_tags.TOKEN_WHITE e st1
      if r.bt ≠ -1 then (r.st, r.bt)
      else run_step2 rank sink curr_pass fuel r.st

/-- The single-rank step-3 backtracking loop, project.cpp lines 779-828 with
every path node local: update flows at the current node, then follow the back
pointer until the node that recorded the source as its predecessor has been
processed. -/
def run_step3 (rank : Int) (source : Nat) (sink_value : Int) :
    Nat → PassState → Nat → PassState
  | 0, st, _ => st
  | Nat.succ fuel, st, bt_idx =>
    let l := st.labels.getD bt_idx EMPTY_LABEL
    let st2 := bt_update rank st bt_idx sink_value
    if l.prev_rank_loc ≠ rank then st2
    else if (bt_idx : Int) = l.prev_vert_index ∧ l.prev_node = source then st2
    else run_step3 rank source sink_value fuel st2 l.prev_vert_index.toNat

/-- One full pass of run_algorithm (steps 1-3) for a single rank running one
worker thread; `sink_value` is read from the sink's label (line 740). -/
def run_pass (fuel : Nat) (sink source : Nat) (curr_pass : Int) (st : PassState) : PassState :=
  let st1 := run_step1 0 sink source st
  let p := run_step2 0 sink curr_pass fuel st1
  if p.2 = -1 then p.1
  else
    let bt := p.2.toNat
    let sv := (p.1.labels.getD bt EMPTY_LABEL).value
    run_step3 0 source sv fuel p.1 bt

/-- The per-rank total-flow computation at the end of calc_max_flow,
project.cpp lines 1028-1035: -1 when the source is not local, otherwise the
sum of the flow fields of the source's outgoing edges. -/
def total_flow_local (vs : List vertex) (source : Nat) : Int :=
  let src_idx := lookup_global_id vs source
  if src_idx = -1 then -1
  else (((vs.getD src_idx.toNat default).out_edges).map (fun e => e.flow)).sum

/-- The TOTAL_FLOW send, project.cpp lines 1045-1050: a rank other than 0
that computed a local total sends it to rank 0.  Result: list of
(destination rank, value) pairs sent by `rank`. -/
def sends_total_flow (rank : Nat) (tf : Int) : List (Nat × Int) :=
  if rank ≠ 0 ∧ tf ≠ -1 then [(0, tf)] else []

/-- Rank 0's final answer, project.cpp lines 1037-1044: its own local total
when the source is local, otherwise the value received in the TOTAL_FLOW
message from the (unique) rank that owns the source.  `locals` lists every
rank's local total in rank order. -/
def rank0_final (locals : List Int) : Int :=
  let own := locals.getD 0 (-1)
  if own ≠ -1 then own
  else ((locals.drop 1).find? (fun x => x != -1)).getD (-1)

/-- main's result output, project.cpp lines 1313-1315: only rank 0 prints the
`Max flow:` line. -/
def max_flow_output (rank : Nat) (v : Int) : List String :=
  if rank = 0 then ["Max flow: " ++ toString v] else []

/-- C2 failing input, single rank, one worker thread: `N=2 M=2` with two
parallel edges 0 to 1 of capacities 5 and 0 (input file line for vertex 0:
"1 5 1 0"); source 0, sink 1; all flows start at 0. -/
def stC2 : PassState :=
  { vertices :=
      [⟨0, [⟨1, 1, 0, 5, 0⟩, ⟨1, 1, 0, 0, 0⟩], []⟩,
       ⟨1, [], [⟨0, 0, 0⟩, ⟨0, 0, 0⟩]⟩],
    labels := [EMPTY_LABEL, EMPTY_LABEL], queue := [] }

/-- C3 counterexample state: node 0 has two parallel outgoing edges to the
sink node 1; the sink's label (value 5, predecessor node 0 at local index 0)
is about to be backtracked with increment 5. -/
def stC3 : PassState :=
  { vertices :=
      [⟨0, [⟨1, 1, 0, 5, 0⟩, ⟨1, 1, 0, 0, 0⟩], []⟩,
       ⟨1, [], [⟨0, 0, 0⟩, ⟨0, 0, 0⟩]⟩],
    labels := [⟨INT_MAX, 0, 0, 0⟩, ⟨5, 0, 0, 0⟩], queue := [] }

/-- C3 witness state: node 0 has exactly one outgoing edge to node 1 (id 1)
and one to node 2 (id 2); node 1 carries label value 3 with predecessor node
0 (rank 0, local index 0), node 2 carries label value -4 with predecessor
node 1. -/
def stC3w : PassState :=
  { vertices :=
      [⟨0, [⟨1, 1, 0, 5, 0⟩, ⟨2, 2, 0, 7, 1⟩], []⟩,
       ⟨1, [], [⟨0, 0, 0⟩]⟩,
       ⟨2, [⟨1, 1, 0, 9, 6⟩], []⟩],
    labels := [⟨INT_MAX, 0, 0, 0⟩, ⟨3, 0, 0, 0⟩, ⟨-4, 1, 0, 1⟩], queue := [] }

/-- C4 witness state: node at local index 0 (global id 3) has one outgoing
edge to the remote node 8 on rank 0, capacity 4 and flow 1; its label value
is -2. -/
def stC4w : PassState :=
  { vertices := [⟨3, [⟨8, -1, 0, 4, 1⟩], []⟩],
    labels := [⟨-2, 5, 1, 0⟩], queue := [] }

/-- C5 witness state: node at local index 0 (global id 4, label value 6) has
a reverse edge from the local node 7 at index 1; the matching outgoing edge
of node 7 back to index 0 carries flow 2. -/
def stC5w : PassState :=
  { vertices :=
      [⟨4, [], [⟨7, 1, 0⟩]⟩,
       ⟨7, [⟨4, 0, 0, 9, 2⟩], []⟩],
    labels := [⟨6, 9, 0, 2⟩, EMPTY_LABEL], queue := [] }

/-- C6 witness state: two nodes, node 0 unlabeled, node 1 (the sink, global
id 1) unlabeled. -/
def stC6w : PassState :=
  { vertices := [⟨0, [⟨1, 1, 0, 5, 0⟩], []⟩, ⟨1, [], [⟨0, 0, 0⟩]⟩],
    labels := [EMPTY_LABEL, EMPTY_LABEL], queue := [] }

/-- C7 witness router state (rank 0 of 3, nothing found yet). -/
def rstC7w : RouterState :=
  { ps := ⟨[], [], []⟩, sink_found := false, working_threads := 0,
    token_color := message_tags.TOKEN_WHITE, have_token := false,
    algorithm_complete := false, bt_idx := -1 }

/-- C8 counterexample state: one local node (global id 7) with an outgoing
edge to the remote node 9 that currently carries flow 2. -/
def stC8 : PassState :=
  { vertices := [⟨7, [⟨9, -1, 1, 4, 2⟩], []⟩], labels := [EMPTY_LABEL], queue := [] }

/-- C8 counterexample message: an UPDATE_FLOW for node 7 from node 9 carrying
value 3, stamped with pass 1 while the receiver is already in pass 2. -/
def msgC8 : message_data := ⟨9, 7, 3, 1⟩

/-- C8 witness router state: one local node (global id 7); no activity. -/
def rstC8w : RouterState :=
  { ps := ⟨[⟨7, [⟨9, -1, 1, 4, 2⟩], []⟩], [EMPTY_LABEL], []⟩, sink_found := false,
    working_threads := 4, token_color := message_tags.TOKEN_WHITE,
    have_token := false, algorithm_complete := false, bt_idx := -1 }

/-- C9 witness state for the amended claim: rank 3 holds node 6 (label value
2) whose only outgoing edge goes to node 9 owned by the lower rank 1. -/
def stC9w : PassState :=
  { vertices := [⟨6, [⟨9, -1, 1, 8, 0⟩], []⟩],
    labels := [⟨2, 0, 3, 0⟩], queue := [] }

/-- C10 witness state: newly labelled node at index 0 (global id 5, labelled
with predecessor node 2) with three outgoing edges - one to the already
labelled local node 1, one back to its predecessor node 2, one to the fresh
local node 3 - and one incoming edge from its predecessor. -/
def stC10w : PassState :=
  { vertices :=
      [⟨5, [⟨1, 1, 0, 4, 0⟩, ⟨2, 2, 0, 6, 0⟩, ⟨3, 3, 0, 2, 0⟩], [⟨2, 2, 0⟩]⟩,
       ⟨1, [], []⟩, ⟨2, [], []⟩, ⟨3, [], []⟩],
    labels := [⟨7, 2, 0, 2⟩, ⟨9, 5, 0, 0⟩, EMPTY_LABEL, EMPTY_LABEL], queue := [] }

/-- C1 witness partition: rank 0 owns only node 5; rank 1 owns the source
(global id 0) whose outgoing edges carry flows 2 and 3. -/
def partsC1 : List (List vertex) :=
  [[⟨5, [], []⟩],
   [⟨0, [⟨5, -1, 0, 9, 2⟩, ⟨6, -1, 2, 4, 3⟩], []⟩]]

theorem getD_of_le {α : Type} (l : List α) (i : Nat) (d : α) (h : l.length ≤ i) :
    l.getD i d = d := by
  induction l generalizing i with
  | nil => simp [List.getD]
  | cons a t ih =>
    cases i with
    | zero => simp at h
    | succ j =>
      have := ih j (by simpa using h)
      simpa [List.getD] using this

theorem getD_set_ne {α : Type} (l : List α) (i j : Nat) (a d : α) (h : i ≠ j) :
    (l.set i a).getD j d = l.getD j d := by
  induction l generalizing i j with
  | nil => simp
  | cons x t ih =>
    cases i with
    | zero =>
      cases j with
      | zero => exact absurd rfl h
      | succ k => simp [List.getD]
    | succ i2 =>
      cases j with
      | zero => simp [List.getD]
      | succ k =>
        have := ih i2 k (by omega)
        simpa [List.getD] using this

theorem getD_set_self {α : Type} (l : List α) (i : Nat) (a d : α) (h : i < l.length) :
    (l.set i a).getD i d = a := by
  induction l generalizing i with
  | nil => simp at h
  | cons x t ih =>
    cases i with
    | zero => simp [List.getD]
    | succ j =>
      have := ih j (by simpa using h)
      simpa [List.getD] using this

theorem getD_map {α β : Type} (f : α → β) (l : List α) (i : Nat) (d : β) (d2 : α)
    (h : i < l.length) :
    (l.map f).getD i d = f (l.getD i d2) := by
  induction l generalizing i with
  | nil => simp at h
  | cons x t ih =>
    cases i with
    | zero => simp [List.getD]
    | succ j =>
      have := ih j (by simpa using h)
      simpa [List.getD] using this

theorem getD_drop_one {α : Type} (l : List α) (k : Nat) (d : α) :
    (l.drop 1).getD k d = l.getD (k + 1) d := by
  cases l with
  | nil => simp [List.getD]
  | cons a t => simp [List.getD]

theorem find?_of_unique (l : List Int) (j : Nat) (hj : j < l.length)
    (hall : ∀ k, k < l.length → k ≠ j → l.getD k (-1) = -1)
    (hv : l.getD j (-1) ≠ -1) :
    l.find? (fun x => x != -1) = some (l.getD j (-1)) := by
  induction l generalizing j with
  | nil => simp at hj
  | cons a t ih =>
    cases j with
    | zero =>
      have ha : a ≠ -1 := by simpa [List.getD] using hv
      have hb : (a != -1) = true := by simpa using ha
      simp [List.find?, List.getD, hb]
    | succ j2 =>
      have ha : a = -1 := by
        have := hall 0 (by omega) (by omega)
        simpa [List.getD] using this
      subst ha
      have hrec := ih j2 (by simpa using hj)
        (fun k hk hkj => by
          have := hall (k + 1) (by simpa using hk) (by omega)
          simpa [List.getD] using this)
        (by simpa [List.getD] using hv)
      simpa [List.find?, List.getD] using hrec

/-- C2: the claimed invariant `0 ≤ flow ≤ capacity` after every pass is
violated by the code.  On the failing input stC2 (two parallel edges 0 to 1
with capacities 5 and 0, single rank, one worker), after pass 1 the
break-less backtracking update loop (project.cpp lines 790-794) has added the
increment 5 to BOTH parallel edges, so the capacity-0 edge ends the pass with
flow 5 > 0 = capacity. -/
theorem c2_capacity_invariant_violated :
    ((((run_pass 10 1 0 1 stC2).vertices.getD 0 default).out_edges.getD 1 default).capacity = 0)
    ∧ ((((run_pass 10 1 0 1 stC2).vertices.getD 0 default).out_edges.getD 1 default).flow = 5)
    ∧ ¬((((run_pass 10 1 0 1 stC2).vertices.getD 0 default).out_edges.getD 1 default).flow
          ≤ (((run_pass 10 1 0 1 stC2).vertices.getD 0 default).out_edges.getD 1 default).capacity) := by
  decide

/-- C3 counterexample: the claim says each visited node causes EXACTLY ONE
flow update and no other edge's flow changes.  In stC3 the predecessor node 0
has two parallel outgoing edges to the visited node 1; the backtracking
update adds the increment 5 to both of them (both flows change from 0 to 5),
so more than one edge's flow changes at that step. -/
theorem c3_counterexample :
    ((((bt_update 0 stC3 1 5).vertices.getD 0 default).out_edges.getD 0 default).flow = 5)
    ∧ ((((bt_update 0 stC3 1 5).vertices.getD 0 default).out_edges.getD 1 default).flow = 5)
    ∧ (((stC3.vertices.getD 0 default).out_edges.getD 0 default).flow = 0)
    ∧ (((stC3.vertices.getD 0 default).out_edges.getD 1 default).flow = 0) := by
  decide

/-- C8 counterexample: the claim says every received message whose pass field
differs from the receiver's current pass is dropped without modifying any
edge flow.  An UPDATE_FLOW message stamped pass 1, received by the step-3
handler while the receiver's pass is 2, is applied anyway: the flow of the
edge from node 7 to node 9 changes from 2 to 5. -/
theorem c8_counterexample :
    msgC8.pass = 1 ∧ (1 : Int) ≠ 2
    ∧ ((((step3_recv 2 stC8 0 message_tags.UPDATE_FLOW msgC8).ps.vertices.getD 0
          default).out_edges.getD 0 default).flow = 5)
    ∧ (((stC8.vertices.getD 0 default).out_edges.getD 0 default).flow = 2) := by
  decide

/-- C9 counterexample: the claim says that after ANY message send to a
lower-ranked process the sender's color `my_color` is red, for every tag.
When the idle worker of rank 1 (of 2) forwards the termination token, the
send goes to the lower rank 0, and immediately after the send the sender's
color is reset to white (project.cpp line 673), not red. -/
theorem c9_counterexample :
    (forward_token 1 2 message_tags.TOKEN_RED message_tags.TOKEN_RED).dest = 0
    ∧ (forward_token 1 2 message_tags.TOKEN_RED message_tags.TOKEN_RED).sent_color
        = message_tags.TOKEN_RED
    ∧ (0 : Nat) < 1
    ∧ (forward_token 1 2 message_tags.TOKEN_RED message_tags.TOKEN_RED).my_color
        ≠ message_tags.TOKEN_RED := by
  decide

theorem set_label_found_iff (rank : Int) (sink prev_node : Nat) (prev_rank prev_idx : Int)
    (curr : Nat) (value : Int) (st : PassState) :
    (set_label rank sink prev_node prev_rank prev_idx curr value st).2 = true ↔
      ((st.labels.getD curr EMPTY_LABEL).value = 0
        ∧ (st.vertices.getD curr default).id = sink) := by
  unfold set_label
  split_ifs with h1 h2
  · exact iff_of_true rfl ⟨h1, h2⟩
  · exact iff_of_false (by simp) (fun hc => h2 hc.2)
  · exact iff_of_false (by simp) (fun hc => h1 hc.1)

/-- C4: for a popped outgoing-edge entry (u to v), with residual =
capacity - flow: when residual is not positive the entry is discarded (state
unchanged, no message, no sink signal, color unchanged); otherwise the
proposed label is +min(|label(u)|, residual); when v is local the worker
attempts the CAS-label via set_label, and signals sink-found (bt = v's local
index) exactly when the CAS wins and v is the sink; when v is remote a
SET_TO_LABEL message carrying the proposed value is sent to v's owner. -/
theorem c4_handle_out_edge (rank : Int) (sink : Nat) (curr_pass : Int)
    (my_color : message_tags) (entry : edge_entry) (st : PassState) :
    let v := st.vertices.getD entry.vertex_index default
    let e := v.out_edges.getD entry.edge_index default
    let residual := e.capacity - e.flow
    let lv : Int :=
      min (((st.labels.getD entry.vertex_index EMPTY_LABEL).value.natAbs : Int)) residual
    let sl := set_label rank sink v.id rank (entry.vertex_index : Int) e.vert_index.toNat lv st
    let r := handle_out_edge rank sink curr_pass my_color entry st
    (residual ≤ 0 → r = ⟨st, [], -1, my_color⟩)
    ∧ (0 < residual → e.rank_location = rank →
        r.st = sl.1 ∧ r.sent = [] ∧ r.color = my_color
        ∧ r.bt = (if sl.2 then e.vert_index else -1)
        ∧ (sl.2 = true ↔ ((st.labels.getD e.vert_index.toNat EMPTY_LABEL).value = 0
            ∧ (st.vertices.getD e.vert_index.toNat default).id = sink)))
    ∧ (0 < residual → e.rank_location ≠ rank →
        r.st = st ∧ r.bt = -1
        ∧ r.sent = [⟨e.rank_location, message_tags.SET_TO_LABEL,
              some ⟨v.id, e.dest_node_id, lv, curr_pass⟩⟩]
        ∧ r.color = (if e.rank_location < rank then message_tags.TOKEN_RED else my_color)) := by
  refine ⟨?_, ?_, ?_⟩
  · intro h
    simp only [handle_out_edge]
    rw [if_pos h]
  · intro h hl
    simp only [handle_out_edge]
    rw [if_neg (by omega), if_pos hl]
    refine ⟨?_, ?_, ?_, ?_, ?_⟩
    · split <;> rfl
    · split <;> rfl
    · split <;> rfl
    · split <;> simp_all
    · exact set_label_found_iff _ _ _ _ _ _ _ _
  · intro h hl
    simp only [handle_out_edge]
    rw [if_neg (by omega), if_neg hl]
    exact ⟨rfl, rfl, rfl, rfl⟩

/-- C4 witness: on stC4w (rank 1, label value -2, edge of capacity 4 and
flow 1 to the remote node 8 on the lower rank 0) the worker keeps the state,
sends SET_TO_LABEL with value min(2, 3) = 2 to rank 0, and turns red. -/
theorem c4_handle_out_edge_witness :
    (handle_out_edge 1 9 1 message_tags.TOKEN_WHITE ⟨0, true, 0⟩ stC4w).st = stC4w
    ∧ (handle_out_edge 1 9 1 message_tags.TOKEN_WHITE ⟨0, true, 0⟩ stC4w).bt = -1
    ∧ (handle_out_edge 1 9 1 message_tags.TOKEN_WHITE ⟨0, true, 0⟩ stC4w).sent
        = [⟨0, message_tags.SET_TO_LABEL, some ⟨3, 8, 2, 1⟩⟩]
    ∧ (handle_out_edge 1 9 1 message_tags.TOKEN_WHITE ⟨0, true, 0⟩ stC4w).color
        = message_tags.TOKEN_RED := by
  have h := c4_handle_out_edge 1 9 1 message_tags.TOKEN_WHITE ⟨0, true, 0⟩ stC4w
  obtain ⟨-, -, h3⟩ := h
  have h4 := h3 (by decide) (by decide)
  exact ⟨h4.1, h4.2.1, h4.2.2.1, h4.2.2.2⟩

/-- C5: for a popped reverse-edge entry (v from u): when u is local the
worker reads flow(u to v) directly (first matching outgoing edge of u, -1
when none) and discards the entry when that flow is not positive, otherwise
it attempts to CAS-label u with -min(|label(v)|, flow); when u is remote it
sends COMPUTE_FROM_LABEL carrying label(v) to u's owner; and the receiving
rank's router looks up the outgoing edge from its local node to the sender's
node and, only when that edge's flow is positive, attempts the CAS-label
with -min(|value|, flow). -/
theorem c5_handle_in_edge (rank : Int) (sink : Nat) (curr_pass : Int)
    (my_color : message_tags) (entry : edge_entry) (st : PassState) :
    let v := st.vertices.getD entry.vertex_index default
    let rev := v.in_edges.getD entry.edge_index default
    let fl := find_flow_by_index st rev.vert_index.toNat entry.vertex_index
    let lv : Int :=
      -(min (((st.labels.getD entry.vertex_index EMPTY_LABEL).value.natAbs : Int)) fl)
    let sl := set_label rank sink v.id rank (entry.vertex_index : Int) rev.vert_index.toNat lv st
    let r := handle_in_edge rank sink curr_pass my_color entry st
    (rev.rank_location = rank → fl ≤ 0 → r = ⟨st, [], -1, my_color⟩)
    ∧ (rev.rank_location = rank → 0 < fl →
        r.st = sl.1 ∧ r.sent = [] ∧ r.color = my_color
        ∧ r.bt = (if sl.2 then rev.vert_index else -1))
    ∧ (rev.rank_location ≠ rank →
        r.st = st ∧ r.bt = -1
        ∧ r.sent = [⟨rev.rank_location, message_tags.COMPUTE_FROM_LABEL,
            some ⟨v.id, rev.dest_node_id,
                  (st.labels.getD entry.vertex_index EMPTY_LABEL).value, curr_pass⟩⟩]
        ∧ r.color = (if rev.rank_location < rank then message_tags.TOKEN_RED else my_color))
    ∧ (∀ (rnk P : Nat) (flags : List Bool) (src : Nat) (msg : message_data) (rst : RouterState),
        lookup_global_id rst.ps.vertices msg.receivers_node ≠ -1 →
        msg.pass = curr_pass →
        let idx := (lookup_global_id rst.ps.vertices msg.receivers_node).toNat
        let cf := find_flow_by_gid rst.ps idx msg.senders_node
        let rr := handle_message_step2 rnk P sink curr_pass flags src
            message_tags.COMPUTE_FROM_LABEL msg rst
        (cf ≤ 0 → rr.1.ps = rst.ps ∧ rr.2 = [] ∧ rr.1.sink_found = rst.sink_found)
        ∧ (0 < cf → rr.1.ps = (set_label (rnk : Int) sink msg.senders_node (src : Int) (-1)
              idx (-(min ((msg.value.natAbs : Int)) cf)) rst.ps).1)) := by
  refine ⟨?_, ?_, ?_, ?_⟩
  · intro hl h
    simp only [handle_in_edge]
    rw [if_pos hl, if_pos h]
  · intro hl h
    simp only [handle_in_edge]
    rw [if_pos hl, if_neg (by omega)]
    refine ⟨?_, ?_, ?_, ?_⟩
    · split <;> rfl
    · split <;> rfl
    · split <;> rfl
    · split <;> simp_all
  · intro hl
    simp only [handle_in_edge]
    rw [if_neg hl]
    exact ⟨rfl, rfl, rfl, rfl⟩
  · intro rnk P flags src msg rst hlook hpass
    simp only [handle_message_step2]
    rw [if_neg hlook, if_neg (by simp [hpass])]
    refine ⟨?_, ?_⟩
    · intro hcf
      rw [if_pos hcf]
      exact ⟨rfl, rfl, rfl⟩
    · intro hcf
      rw [if_neg (by omega)]
      split <;> rfl

/-- C5 witness: on stC5w (sink 99) the reverse-edge entry at node index 0 has
its "from" node local at index 1; the matching outgoing edge carries flow
2 > 0, so the worker CAS-labels node 1 with -min(|6|, 2) = -2 and sends
nothing. -/
theorem c5_handle_in_edge_witness :
    (handle_in_edge 0 99 1 message_tags.TOKEN_WHITE ⟨0, false, 0⟩ stC5w).sent = []
    ∧ (handle_in_edge 0 99 1 message_tags.TOKEN_WHITE ⟨0, false, 0⟩ stC5w).st.labels
        = [⟨6, 9, 0, 2⟩, ⟨-2, 4, 0, 0⟩]
    ∧ (handle_in_edge 0 99 1 message_tags.TOKEN_WHITE ⟨0, false, 0⟩ stC5w).bt = -1 := by
  have h := c5_handle_in_edge 0 99 1 message_tags.TOKEN_WHITE ⟨0, false, 0⟩ stC5w
  obtain ⟨-, h2, -, -⟩ := h
  have h3 := h2 (by decide) (by decide)
  refine ⟨h3.2.1, ?_, ?_⟩
  · rw [h3.1]; decide
  · rw [h3.2.2.2]; decide

theorem set_label_of_nonzero (rank : Int) (sink prev_node : Nat)
    (prev_rank prev_idx : Int) (curr : Nat) (value : Int) (st : PassState)
    (h : (st.labels.getD curr EMPTY_LABEL).value ≠ 0) :
    set_label rank sink prev_node prev_rank prev_idx curr value st = (st, false) := by
  simp only [set_label]
  rw [if_neg h]

/-- C6: setting a label is a compare-and-set from the empty value 0 to the
proposed value: a caller finding a non-zero slot changes nothing and
enqueues nothing; the caller whose CAS succeeds is the one that writes the
value together with the back-pointer fields and (unless the node is the
sink) enqueues the vertex's edges; and once the slot holds a non-zero value
any further set_label on the same slot within the pass is a no-op, so the
slot's value is written at most once. -/
theorem c6_set_label_write_once (rank : Int) (sink prev_node : Nat)
    (prev_rank prev_idx : Int) (curr : Nat) (value : Int) (st : PassState)
    (hcurr : curr < st.labels.length) :
    let old := (st.labels.getD curr EMPTY_LABEL).value
    let sl := set_label rank sink prev_node prev_rank prev_idx curr value st
    (old ≠ 0 → sl = (st, false))
    ∧ (old = 0 →
        sl.1.labels = st.labels.set curr ⟨value, prev_node, prev_rank, prev_idx⟩
        ∧ sl.1.vertices = st.vertices
        ∧ ((st.vertices.getD curr default).id = sink → sl.2 = true ∧ sl.1.queue = st.queue)
        ∧ ((st.vertices.getD curr default).id ≠ sink → sl.2 = false
            ∧ sl.1.queue = st.queue ++ insert_edges rank
                { st with labels := st.labels.set curr ⟨value, prev_node, prev_rank, prev_idx⟩ }
                curr))
    ∧ (old = 0 → value ≠ 0 →
        ∀ (pn2 : Nat) (pr2 pi2 v2 : Int),
          set_label rank sink pn2 pr2 pi2 curr v2 sl.1 = (sl.1, false)) := by
  refine ⟨?_, ?_, ?_⟩
  · intro h
    exact set_label_of_nonzero rank sink prev_node prev_rank prev_idx curr value st h
  · intro h
    simp only [set_label]
    rw [if_pos h]
    split_ifs with h2
    · exact ⟨rfl, rfl, fun _ => ⟨rfl, rfl⟩, fun hc => absurd h2 hc⟩
    · exact ⟨rfl, rfl, fun hc => absurd hc h2, fun _ => ⟨rfl, rfl⟩⟩
  · intro h hv pn2 pr2 pi2 v2
    have hlab : (set_label rank sink prev_node prev_rank prev_idx curr value st).1.labels
        = st.labels.set curr ⟨value, prev_node, prev_rank, prev_idx⟩ := by
      simp only [set_label]
      rw [if_pos h]
      split <;> rfl
    have hval : (((set_label rank sink prev_node prev_rank prev_idx curr value st).1.labels.getD
        curr EMPTY_LABEL)).value = value := by
      rw [hlab, getD_set_self st.labels curr _ EMPTY_LABEL hcurr]
    exact set_label_of_nonzero rank sink pn2 pr2 pi2 curr v2 _ (by rw [hval]; exact hv)

/-- C6 witness: on stC6w the CAS on the empty slot of node index 1 (the sink,
global id 1) succeeds and writes value 4 with its back pointers without
enqueuing anything, and a second set_label on the same slot in the same pass
is a no-op. -/
theorem c6_set_label_write_once_witness :
    (set_label 0 1 0 0 0 1 4 stC6w).1.labels = [EMPTY_LABEL, ⟨4, 0, 0, 0⟩]
    ∧ (set_label 0 1 0 0 0 1 4 stC6w).2 = true
    ∧ set_label 0 1 5 2 7 1 9 (set_label 0 1 0 0 0 1 4 stC6w).1
        = ((set_label 0 1 0 0 0 1 4 stC6w).1, false) := by
  have h := c6_set_label_write_once 0 1 0 0 0 1 4 stC6w (by decide)
  obtain ⟨-, h2, h3⟩ := h
  have h2a := h2 (by decide)
  refine ⟨?_, (h2a.2.2.1 (by decide)).1, h3 (by decide) (by decide) 5 2 7 9⟩
  rw [h2a.1]
  decide

theorem mem_check_sends (P : Nat) (d : Int) :
    ((⟨d, message_tags.CHECK_TERMINATION, none⟩ : sent_msg)
        ∈ (List.range (P - 1)).map
          (fun (i : Nat) => (⟨(i : Int) + 1, message_tags.CHECK_TERMINATION, none⟩ : sent_msg)))
      ↔ (1 ≤ d ∧ d < (P : Int)) := by
  rw [List.mem_map]
  constructor
  · rintro ⟨i, hi, heq⟩
    rw [List.mem_range] at hi
    have h1 : (i : Int) + 1 = d := congrArg sent_msg.dest heq
    omega
  · intro hd
    refine ⟨(d - 1).toNat, ?_, ?_⟩
    · rw [List.mem_range]
      omega
    · have h2 : (((d - 1).toNat : Nat) : Int) + 1 = d := by omega
      rw [h2]

/-- C7: when rank 0 receives a white token it sends CHECK_TERMINATION to
exactly the other ranks 1..P-1 and enters the all-reduce over every rank's
queue_is_empty flag encoded as 0 for empty and 1 for non-empty; the
algorithm-complete flag becomes true if and only if that sum is zero (and
every rank's CHECK_TERMINATION handler decides completion by the same
all-reduce).  A red token received by rank 0 is discarded - nothing is sent,
no state changes, completion is not signalled - and the stored token color is
reset to white, so the token that rank 0 subsequently forwards is white
(rank 0's own color is white, having no lower-ranked peer). -/
theorem c7_rank0_termination_check (P : Nat) (sink : Nat) (curr_pass : Int)
    (flags : List Bool) (src : Nat) (msg : message_data) (rst : RouterState)
    (hnc : rst.algorithm_complete = false) :
    let rw := handle_message_step2 0 P sink curr_pass flags src message_tags.TOKEN_WHITE msg rst
    let rr := handle_message_step2 0 P sink curr_pass flags src message_tags.TOKEN_RED msg rst
    (rw.1.algorithm_complete = true ↔ (flags.map encode_empty).sum = 0)
    ∧ (∀ d : Int, (⟨d, message_tags.CHECK_TERMINATION, none⟩ : sent_msg) ∈ rw.2
        ↔ (1 ≤ d ∧ d < (P : Int)))
    ∧ rw.2.length = P - 1
    ∧ encode_empty true = 0 ∧ encode_empty false = 1
    ∧ rw.1.ps = rst.ps
    ∧ rr.1.ps = rst.ps ∧ rr.2 = [] ∧ rr.1.algorithm_complete = false
    ∧ rr.1.token_color = message_tags.TOKEN_WHITE
    ∧ (forward_token 0 P message_tags.TOKEN_WHITE rr.1.token_color).sent_color
        = message_tags.TOKEN_WHITE
    ∧ (∀ (rnk : Nat) (rst2 : RouterState), rst2.algorithm_complete = false →
        ((handle_message_step2 rnk P sink curr_pass flags src
            message_tags.CHECK_TERMINATION msg rst2).1.algorithm_complete = true
          ↔ (flags.map encode_empty).sum = 0)) := by
  have hred : handle_message_step2 0 P sink curr_pass flags src message_tags.TOKEN_RED msg rst
      = ({ rst with token_color := message_tags.TOKEN_WHITE, have_token := true,
                    working_threads := rst.working_threads + 1 - 1 }, []) := rfl
  have hwhite : handle_message_step2 0 P sink curr_pass flags src message_tags.TOKEN_WHITE msg rst
      = (if allreduce_sum flags = 0
         then ({ rst with token_color := message_tags.TOKEN_WHITE, algorithm_complete := true,
                          working_threads := rst.working_threads + 1 - 1 },
               (List.range (P - 1)).map
                 (fun (i : Nat) =>
                   (⟨(i : Int) + 1, message_tags.CHECK_TERMINATION, none⟩ : sent_msg)))
         else ({ rst with token_color := message_tags.TOKEN_WHITE, have_token := true,
                          working_threads := rst.working_threads + 1 - 1 },
               (List.range (P - 1)).map
                 (fun (i : Nat) =>
                   (⟨(i : Int) + 1, message_tags.CHECK_TERMINATION, none⟩ : sent_msg)))) := rfl
  have hw2 : (handle_message_step2 0 P sink curr_pass flags src
      message_tags.TOKEN_WHITE msg rst).2
      = (List.range (P - 1)).map
          (fun (i : Nat) => (⟨(i : Int) + 1, message_tags.CHECK_TERMINATION, none⟩ : sent_msg)) := by
    rw [hwhite]
    split <;> rfl
  refine ⟨?_, ?_, ?_, rfl, rfl, ?_, ?_, ?_, ?_, ?_, ?_, ?_⟩
  · rw [hwhite]
    by_cases hsum : allreduce_sum flags = 0
    · rw [if_pos hsum]
      exact iff_of_true rfl hsum
    · rw [if_neg hsum]
      exact iff_of_false (by simp [hnc]) hsum
  · intro d
    rw [hw2]
    exact mem_check_sends P d
  · rw [hw2]
    simp
  · rw [hwhite]
    split <;> rfl
  · rw [hred]
  · rw [hred]
  · rw [hred]
    exact hnc
  · rw [hred]
  · rw [hred]
    rfl
  · intro rnk rst2 hnc2
    have hct : handle_message_step2 rnk P sink curr_pass flags src
        message_tags.CHECK_TERMINATION msg rst2
        = (if allreduce_sum flags = 0
           then ({ rst2 with algorithm_complete := true,
                             working_threads := rst2.working_threads + 1 - 1 }, [])
           else ({ rst2 with working_threads := rst2.working_threads + 1 - 1 }, [])) := rfl
    rw [hct]
    by_cases hsum : allreduce_sum flags = 0
    · rw [if_pos hsum]
      exact iff_of_true rfl hsum
    · rw [if_neg hsum]
      exact iff_of_false (by simp [hnc2]) hsum

/-- C7 witness: with three ranks and all queue_is_empty flags set, rank 0
receiving a white token sends CHECK_TERMINATION to ranks 1 and 2 and the
all-reduce sum 0 completes the algorithm; receiving a red token completes
nothing, sends nothing, and the next token rank 0 forwards is white. -/
theorem c7_rank0_termination_check_witness :
    (handle_message_step2 0 3 8 1 [true, true, true] 2 message_tags.TOKEN_WHITE
        ⟨0, 0, 0, 1⟩ rstC7w).1.algorithm_complete = true
    ∧ ((⟨1, message_tags.CHECK_TERMINATION, none⟩ : sent_msg)
        ∈ (handle_message_step2 0 3 8 1 [true, true, true] 2 message_tags.TOKEN_WHITE
            ⟨0, 0, 0, 1⟩ rstC7w).2)
    ∧ (handle_message_step2 0 3 8 1 [true, true, true] 2 message_tags.TOKEN_WHITE
        ⟨0, 0, 0, 1⟩ rstC7w).2.length = 2
    ∧ (handle_message_step2 0 3 8 1 [true, true, true] 2 message_tags.TOKEN_RED
        ⟨0, 0, 0, 1⟩ rstC7w).1.algorithm_complete = false
    ∧ (handle_message_step2 0 3 8 1 [true, true, true] 2 message_tags.TOKEN_RED
        ⟨0, 0, 0, 1⟩ rstC7w).2 = []
    ∧ (forward_token 0 3 message_tags.TOKEN_WHITE
        (handle_message_step2 0 3 8 1 [true, true, true] 2 message_tags.TOKEN_RED
          ⟨0, 0, 0, 1⟩ rstC7w).1.token_color).sent_color = message_tags.TOKEN_WHITE := by
  have h := c7_rank0_termination_check 3 8 1 [true, true, true] 2 ⟨0, 0, 0, 1⟩ rstC7w (by decide)
  obtain ⟨h1, h2, h3, -, -, -, -, h8, h9, -, h11, -⟩ := h
  exact ⟨h1.mpr (by decide), (h2 1).mpr (by decide), h3, h9, h8, h11⟩

/-- C8 (amended): every SET_TO_LABEL or COMPUTE_FROM_LABEL received by the
step-2 router whose pass field differs from the receiver's current pass, or
whose receiver global id is not owned by the receiving rank, is dropped with
a diagnostic: no label or edge flow changes, nothing is sent, sink_found is
untouched, and working_threads has the same value after handling the dropped
message as before receiving it.  (The step-3 UPDATE_FLOW handler, by
contrast, applies its flow delta without any pass check - see the
counterexample.) -/
theorem c8_step2_stale_or_misrouted_dropped (rnk P : Nat) (sink : Nat) (curr_pass : Int)
    (flags : List Bool) (src : Nat) (tag : message_tags) (msg : message_data)
    (rst : RouterState)
    (htag : tag = message_tags.SET_TO_LABEL ∨ tag = message_tags.COMPUTE_FROM_LABEL)
    (hdrop : msg.pass ≠ curr_pass
      ∨ lookup_global_id rst.ps.vertices msg.receivers_node = -1) :
    let rr := handle_message_step2 rnk P sink curr_pass flags src tag msg rst
    rr.1.ps = rst.ps ∧ rr.1.working_threads = rst.working_threads
    ∧ rr.2 = [] ∧ rr.1.sink_found = rst.sink_found := by
  rcases htag with h | h <;> subst h <;>
    by_cases hlook : lookup_global_id rst.ps.vertices msg.receivers_node = -1
  · simp only [handle_message_step2]
    rw [if_pos hlook]
    refine ⟨rfl, ?_, rfl, rfl⟩
    show rst.working_threads + 1 - 1 = rst.working_threads
    omega
  · have hpass : msg.pass ≠ curr_pass := hdrop.resolve_right hlook
    simp only [handle_message_step2]
    rw [if_neg hlook, if_pos hpass]
    refine ⟨rfl, ?_, rfl, rfl⟩
    show rst.working_threads + 1 - 1 = rst.working_threads
    omega
  · simp only [handle_message_step2]
    rw [if_pos hlook]
    refine ⟨rfl, ?_, rfl, rfl⟩
    show rst.working_threads + 1 - 1 = rst.working_threads
    omega
  · have hpass : msg.pass ≠ curr_pass := hdrop.resolve_right hlook
    simp only [handle_message_step2]
    rw [if_neg hlook, if_pos hpass]
    refine ⟨rfl, ?_, rfl, rfl⟩
    show rst.working_threads + 1 - 1 = rst.working_threads
    omega

/-- C8 witness: on rstC8w (current pass 2, node 7 local, working_threads 4) a
SET_TO_LABEL message stamped with the old pass 5 is dropped: state, sends and
the working_threads counter are unchanged. -/
theorem c8_step2_stale_or_misrouted_dropped_witness :
    (handle_message_step2 1 2 99 2 [false] 0 message_tags.SET_TO_LABEL
        ⟨9, 7, 3, 5⟩ rstC8w).1.ps = rstC8w.ps
    ∧ (handle_message_step2 1 2 99 2 [false] 0 message_tags.SET_TO_LABEL
        ⟨9, 7, 3, 5⟩ rstC8w).1.working_threads = 4
    ∧ (handle_message_step2 1 2 99 2 [false] 0 message_tags.SET_TO_LABEL
        ⟨9, 7, 3, 5⟩ rstC8w).2 = [] := by
  have h := c8_step2_stale_or_misrouted_dropped 1 2 99 2 [false] 0
    message_tags.SET_TO_LABEL ⟨9, 7, 3, 5⟩ rstC8w (Or.inl rfl) (Or.inl (by decide))
  exact ⟨h.1, h.2.1, h.2.2.1⟩

theorem handle_out_edge_sent_dest (rank : Int) (sink : Nat) (curr_pass : Int)
    (my_color : message_tags) (entry : edge_entry) (st : PassState) (s : sent_msg)
    (hs : s ∈ (handle_out_edge rank sink curr_pass my_color entry st).sent) :
    s.dest = ((st.vertices.getD entry.vertex_index default).out_edges.getD
        entry.edge_index default).rank_location
    ∧ (handle_out_edge rank sink curr_pass my_color entry st).color
        = (if ((st.vertices.getD entry.vertex_index default).out_edges.getD
              entry.edge_index default).rank_location < rank
           then message_tags.TOKEN_RED else my_color) := by
  simp only [handle_out_edge] at hs ⊢
  split at hs
  next hres => simp at hs
  next hres =>
    split at hs
    next hloc => split at hs <;> simp at hs
    next hloc =>
      rw [if_neg hres, if_neg hloc]
      simp only [List.mem_singleton] at hs
      subst hs
      exact ⟨rfl, rfl⟩

theorem handle_in_edge_sent_dest (rank : Int) (sink : Nat) (curr_pass : Int)
    (my_color : message_tags) (entry : edge_entry) (st : PassState) (s : sent_msg)
    (hs : s ∈ (handle_in_edge rank sink curr_pass my_color entry st).sent) :
    s.dest = ((st.vertices.getD entry.vertex_index default).in_edges.getD
        entry.edge_index default).rank_location
    ∧ (handle_in_edge rank sink curr_pass my_color entry st).color
        = (if ((st.vertices.getD entry.vertex_index default).in_edges.getD
              entry.edge_index default).rank_location < rank
           then message_tags.TOKEN_RED else my_color) := by
  simp only [handle_in_edge] at hs ⊢
  split at hs
  next hloc =>
    split at hs
    next hfl => simp at hs
    next hfl => split at hs <;> simp at hs
  next hloc =>
    rw [if_neg hloc]
    simp only [List.mem_singleton] at hs
    subst hs
    exact ⟨rfl, rfl⟩

/-- C9 (amended): the labeling sends do color the sender - whenever
handle_out_edge's SET_TO_LABEL send or handle_in_edge's COMPUTE_FROM_LABEL
send goes to a rank lower than the sender's, the sender's ring color
my_color is red after the send - but not every send to a lower rank does:
forwarding the termination token (which from the last rank goes to the lower
rank 0) always leaves the forwarder's color white. -/
theorem c9_labeling_sends_turn_red (rank : Int) (sink : Nat) (curr_pass : Int)
    (my_color : message_tags) (entry : edge_entry) (st : PassState) :
    (∀ s ∈ (handle_out_edge rank sink curr_pass my_color entry st).sent,
        s.dest < rank → (handle_out_edge rank sink curr_pass my_color entry st).color
          = message_tags.TOKEN_RED)
    ∧ (∀ s ∈ (handle_in_edge rank sink curr_pass my_color entry st).sent,
        s.dest < rank → (handle_in_edge rank sink curr_pass my_color entry st).color
          = message_tags.TOKEN_RED)
    ∧ (∀ (rnk P : Nat) (mc tc : message_tags),
        (forward_token rnk P mc tc).my_color = message_tags.TOKEN_WHITE) := by
  refine ⟨?_, ?_, fun rnk P mc tc => rfl⟩
  · intro s hs hlt
    obtain ⟨hd, hc⟩ := handle_out_edge_sent_dest rank sink curr_pass my_color entry st s hs
    rw [hc, if_pos (hd ▸ hlt)]
  · intro s hs hlt
    obtain ⟨hd, hc⟩ := handle_in_edge_sent_dest rank sink curr_pass my_color entry st s hs
    rw [hc, if_pos (hd ▸ hlt)]

/-- C9 witness: on stC9w the worker at rank 3 sends SET_TO_LABEL for its only
outgoing edge to rank 1 < 3 and its color is red afterwards. -/
theorem c9_labeling_sends_turn_red_witness :
    (handle_out_edge 3 99 1 message_tags.TOKEN_WHITE ⟨0, true, 0⟩ stC9w).sent
      = [⟨1, message_tags.SET_TO_LABEL, some ⟨6, 9, 2, 1⟩⟩]
    ∧ (handle_out_edge 3 99 1 message_tags.TOKEN_WHITE ⟨0, true, 0⟩ stC9w).color
      = message_tags.TOKEN_RED := by
  have h := (c9_labeling_sends_turn_red 3 99 1 message_tags.TOKEN_WHITE ⟨0, true, 0⟩ stC9w).1
    ⟨1, message_tags.SET_TO_LABEL, some ⟨6, 9, 2, 1⟩⟩ (by decide) (by decide)
  exact ⟨by decide, h⟩

theorem guard_eq_some {α : Type} (A B : Prop) [Decidable A] [Decidable B] (e x : α) :
    ((if A then none else if B then none else some e) = some x) ↔ (¬A ∧ ¬B ∧ e = x) := by
  split_ifs with hA hB
  · simp [hA]
  · simp [hA, hB]
  · simp [hA, hB]

/-- C10: when a vertex is newly labelled, insert_edges enqueues an entry for
each of its outgoing and incoming edges except those whose far endpoint is a
locally owned vertex that already carries a non-zero label and those whose
far endpoint's global id equals the newly labelled vertex's recorded
predecessor labels[vert_idx].prev_node; in particular, when the recorded
predecessor is the vertex's own global id (as for the source in step 1), no
self-loop edge is enqueued. -/
theorem c10_insert_edges_membership (rank : Int) (st : PassState) (vert_idx : Nat) :
    let v := st.vertices.getD vert_idx default
    let prev := (st.labels.getD vert_idx EMPTY_LABEL).prev_node
    let frag := insert_edges rank st vert_idx
    (∀ i, i < v.out_edges.length →
      ((⟨vert_idx, true, i⟩ : edge_entry) ∈ frag ↔
        (¬((v.out_edges.getD i default).rank_location = rank
            ∧ labelValueAt st.labels (v.out_edges.getD i default).vert_index ≠ 0)
          ∧ (v.out_edges.getD i default).dest_node_id ≠ prev)))
    ∧ (∀ i, i < v.in_edges.length →
      ((⟨vert_idx, false, i⟩ : edge_entry) ∈ frag ↔
        (¬((v.in_edges.getD i default).rank_location = rank
            ∧ labelValueAt st.labels (v.in_edges.getD i default).vert_index ≠ 0)
          ∧ (v.in_edges.getD i default).dest_node_id ≠ prev)))
    ∧ (prev = v.id → ∀ i, (⟨vert_idx, true, i⟩ : edge_entry) ∈ frag →
        (v.out_edges.getD i default).dest_node_id ≠ v.id) := by
  have hout : ∀ i : Nat,
      ((⟨vert_idx, true, i⟩ : edge_entry) ∈ insert_edges rank st vert_idx) ↔
        (i < (st.vertices.getD vert_idx default).out_edges.length
          ∧ ¬(((st.vertices.getD vert_idx default).out_edges.getD i default).rank_location = rank
              ∧ labelValueAt st.labels
                  ((st.vertices.getD vert_idx default).out_edges.getD i default).vert_index ≠ 0)
          ∧ ((st.vertices.getD vert_idx default).out_edges.getD i default).dest_node_id
              ≠ (st.labels.getD vert_idx EMPTY_LABEL).prev_node) := by
    intro i
    constructor
    · intro hmem
      simp only [insert_edges, List.mem_append] at hmem
      rcases hmem with hmem | hmem
      · rw [List.mem_filterMap] at hmem
        obtain ⟨j, hj, hfj⟩ := hmem
        simp only [guard_eq_some] at hfj
        obtain ⟨hA, hB, heq⟩ := hfj
        have hji : j = i := congrArg edge_entry.edge_index heq
        subst hji
        exact ⟨List.mem_range.mp hj, hA, hB⟩
      · exfalso
        rw [List.mem_filterMap] at hmem
        obtain ⟨j, hj, hfj⟩ := hmem
        simp only [guard_eq_some] at hfj
        have hbad : false = true := congrArg edge_entry.is_outgoing hfj.2.2
        simp at hbad
    · rintro ⟨hi, hA, hB⟩
      simp only [insert_edges, List.mem_append]
      left
      rw [List.mem_filterMap]
      refine ⟨i, List.mem_range.mpr hi, ?_⟩
      simp only [guard_eq_some]
      exact ⟨hA, hB, trivial⟩
  have hin : ∀ i : Nat,
      ((⟨vert_idx, false, i⟩ : edge_entry) ∈ insert_edges rank st vert_idx) ↔
        (i < (st.vertices.getD vert_idx default).in_edges.length
          ∧ ¬(((st.vertices.getD vert_idx default).in_edges.getD i default).rank_location = rank
              ∧ labelValueAt st.labels
                  ((st.vertices.getD vert_idx default).in_edges.getD i default).vert_index ≠ 0)
          ∧ ((st.vertices.getD vert_idx default).in_edges.getD i default).dest_node_id
              ≠ (st.labels.getD vert_idx EMPTY_LABEL).prev_node) := by
    intro i
    constructor
    · intro hmem
      simp only [insert_edges, List.mem_append] at hmem
      rcases hmem with hmem | hmem
      · exfalso
        rw [List.mem_filterMap] at hmem
        obtain ⟨j, hj, hfj⟩ := hmem
        simp only [guard_eq_some] at hfj
        have hbad : true = false := congrArg edge_entry.is_outgoing hfj.2.2
        simp at hbad
      · rw [List.mem_filterMap] at hmem
        obtain ⟨j, hj, hfj⟩ := hmem
        simp only [guard_eq_some] at hfj
        obtain ⟨hA, hB, heq⟩ := hfj
        have hji : j = i := congrArg edge_entry.edge_index heq
        subst hji
        exact ⟨List.mem_range.mp hj, hA, hB⟩
    · rintro ⟨hi, hA, hB⟩
      simp only [insert_edges, List.mem_append]
      right
      rw [List.mem_filterMap]
      refine ⟨i, List.mem_range.mpr hi, ?_⟩
      simp only [guard_eq_some]
      exact ⟨hA, hB, trivial⟩
  refine ⟨?_, ?_, ?_⟩
  · intro i hi
    rw [hout i]
    constructor
    · intro h
      exact ⟨h.2.1, h.2.2⟩
    · intro h
      exact ⟨hi, h.1, h.2⟩
  · intro i hi
    rw [hin i]
    constructor
    · intro h
      exact ⟨h.2.1, h.2.2⟩
    · intro h
      exact ⟨hi, h.1, h.2⟩
  · intro hprev i hmem
    have h := (hout i).mp hmem
    intro hd
    exact h.2.2 (hd.trans hprev.symm)

/-- C10 witness: on stC10w (node 0, predecessor node 2) the fresh-neighbor
edge (out index 2) is enqueued, while the edge to the already labelled local
node 1, the edge back to the predecessor node 2, and the incoming edge from
the predecessor are all skipped. -/
theorem c10_insert_edges_membership_witness :
    ((⟨0, true, 2⟩ : edge_entry) ∈ insert_edges 0 stC10w 0)
    ∧ ¬((⟨0, true, 0⟩ : edge_entry) ∈ insert_edges 0 stC10w 0)
    ∧ ¬((⟨0, true, 1⟩ : edge_entry) ∈ insert_edges 0 stC10w 0)
    ∧ ¬((⟨0, false, 0⟩ : edge_entry) ∈ insert_edges 0 stC10w 0) := by
  have h := c10_insert_edges_membership 0 stC10w 0
  obtain ⟨h1, h2, -⟩ := h
  refine ⟨(h1 2 (by decide)).mpr (by decide), ?_, ?_, ?_⟩
  · intro hmem
    exact absurd ((h1 0 (by decide)).mp hmem) (by decide)
  · intro hmem
    exact absurd ((h1 1 (by decide)).mp hmem) (by decide)
  · intro hmem
    exact absurd ((h2 0 (by decide)).mp hmem) (by decide)

theorem addFlowAll_update (vs : List vertex) (p j : Nat) (target : Nat) (d : Int)
    (hj : j < (vs.getD p default).out_edges.length)
    (hdj : ((vs.getD p default).out_edges.getD j default).dest_node_id = target)
    (huniq : ∀ k, k < (vs.getD p default).out_edges.length → k ≠ j →
        ((vs.getD p default).out_edges.getD k default).dest_node_id ≠ target) :
    (((updVert vs p (addFlowAll target d)).getD p default).out_edges.getD j default).flow
      = ((vs.getD p default).out_edges.getD j default).flow + d
    ∧ (∀ i2 k : Nat, i2 ≠ p ∨ k ≠ j →
        (((updVert vs p (addFlowAll target d)).getD i2 default).out_edges.getD k default).flow
          = ((vs.getD i2 default).out_edges.getD k default).flow) := by
  have hp : p < vs.length := by
    by_contra hnp
    rw [getD_of_le vs p default (by omega)] at hj
    have hz : (default : vertex).out_edges.length = 0 := rfl
    omega
  have hgp : (updVert vs p (addFlowAll target d)).getD p default
      = addFlowAll target d (vs.getD p default) :=
    getD_set_self vs p _ default hp
  constructor
  · rw [hgp]
    simp only [addFlowAll]
    rw [getD_map _ _ j default default hj, if_pos hdj]
  · intro i2 k hik
    by_cases hip : i2 = p
    · subst hip
      rcases hik with hik | hik
      · exact absurd rfl hik
      · rw [hgp]
        simp only [addFlowAll]
        by_cases hk : k < (vs.getD i2 default).out_edges.length
        · rw [getD_map _ _ k default default hk, if_neg (huniq k hk hik)]
        · have hk2 : (vs.getD i2 default).out_edges.length ≤ k := by omega
          rw [getD_of_le _ k default (by rw [List.length_map]; exact hk2),
              getD_of_le _ k default hk2]
    · have hne : (updVert vs p (addFlowAll target d)).getD i2 default = vs.getD i2 default :=
        getD_set_ne vs p i2 _ default (fun h => hip h.symm)
      rw [hne]

/-- C3 (amended): during backtracking with the fixed increment d, a visited
node b with positive label and local predecessor has d added to the flow of
every outgoing edge of the predecessor whose destination is b's node, and a
node with negative label has d subtracted from every outgoing edge of b
whose destination is the recorded predecessor node; hence when exactly one
such edge exists (here: edge j matches and no other index does), exactly one
flow update happens - that edge's flow changes by d (resp. -d) and every
other edge of every vertex, and all labels and the queue, are unchanged. -/
theorem c3_backtrack_flow_update (rank : Int) (st : PassState) (b j : Nat) (d : Int) :
    let l := st.labels.getD b EMPTY_LABEL
    let bid := (st.vertices.getD b default).id
    let p := l.prev_vert_index.toNat
    let st2 := bt_update rank st b d
    (0 < l.value → l.prev_rank_loc = rank →
      j < (st.vertices.getD p default).out_edges.length →
      ((st.vertices.getD p default).out_edges.getD j default).dest_node_id = bid →
      (∀ k, k < (st.vertices.getD p default).out_edges.length → k ≠ j →
        ((st.vertices.getD p default).out_edges.getD k default).dest_node_id ≠ bid) →
      ((((st2.vertices.getD p default).out_edges.getD j default).flow
          = ((st.vertices.getD p default).out_edges.getD j default).flow + d)
        ∧ (∀ i2 k : Nat, i2 ≠ p ∨ k ≠ j →
            ((st2.vertices.getD i2 default).out_edges.getD k default).flow
              = ((st.vertices.getD i2 default).out_edges.getD k default).flow)
        ∧ st2.labels = st.labels ∧ st2.queue = st.queue))
    ∧ (l.value < 0 →
      j < (st.vertices.getD b default).out_edges.length →
      ((st.vertices.getD b default).out_edges.getD j default).dest_node_id = l.prev_node →
      (∀ k, k < (st.vertices.getD b default).out_edges.length → k ≠ j →
        ((st.vertices.getD b default).out_edges.getD k default).dest_node_id ≠ l.prev_node) →
      ((((st2.vertices.getD b default).out_edges.getD j default).flow
          = ((st.vertices.getD b default).out_edges.getD j default).flow - d)
        ∧ (∀ i2 k : Nat, i2 ≠ b ∨ k ≠ j →
            ((st2.vertices.getD i2 default).out_edges.getD k default).flow
              = ((st.vertices.getD i2 default).out_edges.getD k default).flow)
        ∧ st2.labels = st.labels ∧ st2.queue = st.queue)) := by
  constructor
  · intro hv hr hj hdj huniq
    have hst2 : bt_update rank st b d
        = { st with vertices := (updVert st.vertices
              (st.labels.getD b EMPTY_LABEL).prev_vert_index.toNat
              (addFlowAll (st.vertices.getD b default).id d)) } := by
      simp only [bt_update]
      rw [if_pos ⟨hv, hr⟩]
    have h := addFlowAll_update st.vertices
      (st.labels.getD b EMPTY_LABEL).prev_vert_index.toNat j
      (st.vertices.getD b default).id d hj hdj huniq
    refine ⟨?_, ?_, ?_, ?_⟩
    · rw [hst2]
      exact h.1
    · intro i2 k hik
      rw [hst2]
      exact h.2 i2 k hik
    · rw [hst2]
    · rw [hst2]
  · intro hv hj hdj huniq
    have hst2 : bt_update rank st b d
        = { st with vertices := (updVert st.vertices b
              (addFlowAll (st.labels.getD b EMPTY_LABEL).prev_node (-d))) } := by
      simp only [bt_update]
      rw [if_neg (fun hc => absurd hc.1 (by omega)), if_pos hv]
    have h := addFlowAll_update st.vertices b j
      (st.labels.getD b EMPTY_LABEL).prev_node (-d) hj hdj huniq
    refine ⟨?_, ?_, ?_, ?_⟩
    · rw [hst2, h.1]
      omega
    · intro i2 k hik
      rw [hst2]
      exact h.2 i2 k hik
    · rw [hst2]
    · rw [hst2]

/-- C3 witness: on stC3w, backtracking at node 1 (label 3, predecessor node 0
local at index 0) with increment 2 updates exactly the unique edge 0 to 1:
its flow goes from 0 to 2 while the other edge of node 0, the edge of node 2,
the labels and the queue stay unchanged; and backtracking at node 2 (label
-4, predecessor node 1) with increment 2 subtracts 2 from the unique edge
2 to 1. -/
theorem c3_backtrack_flow_update_witness :
    (((bt_update 0 stC3w 1 2).vertices.getD 0 default).out_edges.getD 0 default).flow
      = ((stC3w.vertices.getD 0 default).out_edges.getD 0 default).flow + 2
    ∧ (((bt_update 0 stC3w 1 2).vertices.getD 0 default).out_edges.getD 1 default).flow
      = ((stC3w.vertices.getD 0 default).out_edges.getD 1 default).flow
    ∧ (((bt_update 0 stC3w 1 2).vertices.getD 2 default).out_edges.getD 0 default).flow
      = ((stC3w.vertices.getD 2 default).out_edges.getD 0 default).flow
    ∧ (bt_update 0 stC3w 1 2).labels = stC3w.labels
    ∧ (((bt_update 0 stC3w 2 2).vertices.getD 2 default).out_edges.getD 0 default).flow
      = ((stC3w.vertices.getD 2 default).out_edges.getD 0 default).flow - 2 := by
  have h1 := (c3_backtrack_flow_update 0 stC3w 1 0 2).1 (by decide) (by decide) (by decide)
    (by decide) (by decide)
  have h2 := (c3_backtrack_flow_update 0 stC3w 2 0 2).2 (by decide) (by decide) (by decide)
    (by decide)
  exact ⟨h1.1, h1.2.1 0 1 (Or.inr (by decide)), h1.2.1 2 0 (Or.inl (by decide)),
    h1.2.2.1, h2.1⟩

/-- C1: the rank r that owns the source (global id 0) computes its local
total as the sum of the flow fields over the source's outgoing edges; when
r is not rank 0 that value is sent to rank 0 in a TOTAL_FLOW message (and no
other rank sends one), rank 0's final value is that sum either way, and rank
0 alone prints the line "Max flow: <integer>" with it. -/
theorem c1_max_flow_output (parts : List (List vertex)) (r : Nat)
    (hr : r < parts.length)
    (howner : lookup_global_id (parts.getD r []) 0 ≠ -1)
    (hothers : ∀ q, q < parts.length → q ≠ r → lookup_global_id (parts.getD q []) 0 = -1)
    (hval : total_flow_local (parts.getD r []) 0 ≠ -1) :
    let locals := parts.map (fun vs => total_flow_local vs 0)
    let v := total_flow_local (parts.getD r []) 0
    v = ((((parts.getD r []).getD (lookup_global_id (parts.getD r []) 0).toNat
          default).out_edges).map (fun e => e.flow)).sum
    ∧ rank0_final locals = v
    ∧ (∀ q, q < parts.length →
        sends_total_flow q (locals.getD q (-1))
          = (if q = r ∧ q ≠ 0 then [(0, v)] else []))
    ∧ max_flow_output 0 (rank0_final locals) = ["Max flow: " ++ toString v]
    ∧ (∀ q, q ≠ 0 → max_flow_output q (rank0_final locals) = []) := by
  have hgetq : ∀ q, q < parts.length →
      (parts.map (fun vs => total_flow_local vs 0)).getD q (-1)
        = total_flow_local (parts.getD q []) 0 :=
    fun q hq => getD_map (fun vs => total_flow_local vs 0) parts q (-1) [] hq
  have hq_others : ∀ q, q < parts.length → q ≠ r →
      (parts.map (fun vs => total_flow_local vs 0)).getD q (-1) = -1 := by
    intro q hq hqr
    rw [hgetq q hq]
    simp only [total_flow_local]
    rw [if_pos (hothers q hq hqr)]
  have hv_eq : total_flow_local (parts.getD r []) 0
      = ((((parts.getD r []).getD (lookup_global_id (parts.getD r []) 0).toNat
          default).out_edges).map (fun e => e.flow)).sum := by
    simp only [total_flow_local]
    rw [if_neg howner]
  have hfinal : rank0_final (parts.map (fun vs => total_flow_local vs 0))
      = total_flow_local (parts.getD r []) 0 := by
    by_cases hr0 : r = 0
    · subst hr0
      simp only [rank0_final]
      rw [hgetq 0 hr, if_pos hval]
    · have hown : (parts.map (fun vs => total_flow_local vs 0)).getD 0 (-1) = -1 :=
        hq_others 0 (by omega) (fun h => hr0 h.symm)
      simp only [rank0_final]
      rw [hown, if_neg (by simp)]
      have hlend : ((parts.map (fun vs => total_flow_local vs 0)).drop 1).length
          = parts.length - 1 := by
        rw [List.length_drop, List.length_map]
      have hfind := find?_of_unique ((parts.map (fun vs => total_flow_local vs 0)).drop 1)
        (r - 1) (by omega)
        (by
          intro k hk hkj
          rw [getD_drop_one]
          exact hq_others (k + 1) (by omega) (by omega))
        (by
          rw [getD_drop_one]
          have hr1 : r - 1 + 1 = r := by omega
          rw [hr1, hgetq r hr]
          exact hval)
      rw [hfind]
      rw [Option.getD_some, getD_drop_one]
      have hr1 : r - 1 + 1 = r := by omega
      rw [hr1, hgetq r hr]
  refine ⟨hv_eq, hfinal, ?_, ?_, ?_⟩
  · intro q hq
    by_cases hq2 : q = r
    · subst hq2
      by_cases hq0 : q = 0
      · rw [if_neg (fun hc => hc.2 hq0)]
        subst hq0
        simp [sends_total_flow]
      · rw [if_pos ⟨rfl, hq0⟩, hgetq q hq]
        simp only [sends_total_flow]
        rw [if_pos ⟨hq0, hval⟩]
    · rw [if_neg (fun hc => hq2 hc.1), hq_others q hq hq2]
      simp [sends_total_flow]
  · rw [hfinal]
    simp [max_flow_output]
  · intro q hq0
    simp [max_flow_output, hq0]

/-- C1 witness: with two ranks where rank 1 owns the source whose out-edge
flows are 2 and 3, rank 1 sends TOTAL_FLOW 5 to rank 0 and rank 0 prints
"Max flow: 5". -/
theorem c1_max_flow_output_witness :
    rank0_final (partsC1.map (fun vs => total_flow_local vs 0)) = 5
    ∧ sends_total_flow 1 ((partsC1.map (fun vs => total_flow_local vs 0)).getD 1 (-1))
        = [(0, 5)]
    ∧ max_flow_output 0 (rank0_final (partsC1.map (fun vs => total_flow_local vs 0)))
        = ["Max flow: 5"] := by
  have h := c1_max_flow_output partsC1 1 (by decide) (by decide) (by decide) (by decide)
  obtain ⟨-, h2, h3, h4, -⟩ := h
  have hv : total_flow_local (partsC1.getD 1 []) 0 = 5 := by decide
  refine ⟨?_, ?_, ?_⟩
  · rw [h2, hv]
  · have h5 := h3 1 (by decide)
    rw [h5, if_pos ⟨rfl, by decide⟩, hv]
  · rw [h4, hv]
    rfl
